import Mathlib

/-!
Verification of `merge_function.py` and `demerge/reduce/__init__.py`
(repository `dmerge`) against its natural-language specification.

Shallow embedding conventions:
* numpy scalar floats are modelled as real numbers (`ℝ`);
* numpy 1-d arrays are `List ℝ`, 2-d arrays are `List (List ℝ)` (row major);
* the IEEE value NaN, produced by the source only as the literal `np.nan`
  filler for excluded detectors, is modelled by `Option ℝ` with `none` = NaN;
* Python dicts are built by folding update into a lookup function
  (later assignments win), a missing key (Python `KeyError`) is `none`;
* fallible code returns `Option` / a dedicated error sum.
-/

/-- `Tlos_model(dx, p0, etaf, T0, Troom, Tamb)` from `merge_function.py`:
`(dx + p0*np.sqrt(Troom+T0))**2 / (p0**2 * etaf) - T0/etaf - (1-etaf)/etaf*Tamb`. -/
noncomputable def Tlos_model (dx p0 etaf T0 Troom Tamb : ℝ) : ℝ :=
  (dx + p0 * Real.sqrt (Troom + T0)) ^ 2 / (p0 ^ 2 * etaf)
    - T0 / etaf - (1 - etaf) / etaf * Tamb

/-- `Tlos_model` applied to a numpy array `dx` (scalar parameters broadcast):
each numpy operation on the array (`+` scalar, `**2`, `/` scalar, `-` scalar)
is an element-wise map. -/
noncomputable def Tlos_model_arr (dx : List ℝ) (p0 etaf T0 Troom Tamb : ℝ) : List ℝ :=
  (((dx.map (· + p0 * Real.sqrt (Troom + T0))).map (· ^ 2)).map
      (· / (p0 ^ 2 * etaf))).map (· - T0 / etaf - (1 - etaf) / etaf * Tamb)

/-- A Python dict update `d[k] = v` on an integer-keyed dict modelled as a
lookup function (later assignments win). -/
def pyDictUpd (d : ℤ → Option V) (k : ℤ) (v : V) : ℤ → Option V :=
  fun x => if x = k then some v else d x

/-- A Python dict built by assigning each pair of `pairs` in order into an
initially empty dict. -/
def pyDict (pairs : List (ℤ × V)) : ℤ → Option V :=
  pairs.foldl (fun d p => pyDictUpd d p.1 p.2) (fun _ => none)

/-- numpy transpose of a rectangular row-major 2-d array: the result has
`(m.headD []).length` rows; entry `(t, i)` of the result is entry `(i, t)`
of `m` (`d` is a default for out-of-range access, never hit on rectangular
input). -/
def npT (m : List (List α)) (d : α) : List (List α) :=
  (List.range (m.headD []).length).map (fun t => m.map (fun row => row.getD t d))

/-- The fields of `rhdus` (the reduced FITS) that `calibrate_to_power`
reads. -/
structure RHDUs where
  /-- `rhdus['READOUT'].header['NKID%d' % pixelid]`, as a function of
  `pixelid`. -/
  readout_nkid : ℕ → ℕ
  /-- `rhdus['READOUT'].data['Amp, Ph, linPh %d' % i]`: for column index `i`,
  one `(Amp, Ph, linPh)` triple per timestamp. -/
  readout_amp_ph_linph : ℕ → List (ℝ × ℝ × ℝ)
  /-- `rhdus['KIDSINFO'].data['yfc, linyfc']`: one `(yfc, linyfc)` pair per
  kid. -/
  kidsinfo_yfc_linyfc : List (ℝ × ℝ)
  /-- `rhdus['KIDSINFO'].data['Qr, dQr (300K)']`: one `(Qr, dQr)` pair per
  kid. -/
  kidsinfo_Qr_dQr : List (ℝ × ℝ)

/-- The fields of the detector database `ddb` read by `calibrate_to_power`
and `get_maskid_corresp`. -/
structure DDB where
  /-- `ddb['KIDFILT'].header['NKID%d' % pixelid]`, as a function of
  `pixelid`. -/
  kidfilt_nkid : ℕ → ℕ
  /-- `ddb['KIDFILT'].data['kidid']` -/
  kidfilt_kidid : List ℤ
  /-- `ddb['KIDFILT'].data['masterid']` -/
  kidfilt_masterid : List ℤ
  /-- `ddb['KIDFILT'].data['F_filter, dF_filter']` -/
  kidfilt_F : List (ℝ × ℝ)
  /-- `ddb['KIDFILT'].data['Q_filter, dQ_filter']` -/
  kidfilt_Q : List (ℝ × ℝ)
  /-- `ddb['KIDDES'].data['masterid']` -/
  kiddes_masterid : List ℤ
  /-- `ddb['KIDDES'].data['attribute']` (field renamed: `attribute` is a
  Lean keyword) -/
  kiddes_attr : List String
  /-- `ddb['KIDRESP'].data['cal params']`: one `(p0, etaf, T0)` triple per
  kid. -/
  kidresp_cal_params : List (ℝ × ℝ × ℝ)

/-- `kiddict`, built identically in `calibrate_to_power` and
`get_maskid_corresp`: dict from `kidid` to `masterid` over the KIDFILT
rows. -/
def kiddict (ddb : DDB) : ℤ → Option ℤ :=
  pyDict (ddb.kidfilt_kidid.zip ddb.kidfilt_masterid)

/-- The list comprehension
`[rhdus['READOUT'].data['Amp, Ph, linPh %d' % i].T[2] for i in range(nkid)]`:
one `linPh` time series per kid. -/
noncomputable def readout_cols (r : RHDUs) (nkid : ℕ) : List (List ℝ) :=
  (List.range nkid).map (fun i => (r.readout_amp_ph_linph i).map (fun v => v.2.2))

/-- `linphase = np.transpose([rhdus['READOUT'].data['Amp, Ph, linPh %d' % i].T[2]
for i in range(nkid)])`: shape (ntime, nkid). -/
noncomputable def linphase (r : RHDUs) (nkid : ℕ) : List (List ℝ) :=
  npT (readout_cols r nkid) 0

/-- `linyfc = rhdus['KIDSINFO'].data['yfc, linyfc'].T[1]` -/
noncomputable def linyfc (r : RHDUs) : List ℝ := r.kidsinfo_yfc_linyfc.map (fun v => v.2)

/-- `Qr = rhdus['KIDSINFO'].data['Qr, dQr (300K)'].T[0]` -/
noncomputable def Qr (r : RHDUs) : List ℝ := r.kidsinfo_Qr_dQr.map (fun v => v.1)

/-- `(linphase - linyfc) / (4.*Qr)` in
`fshift = np.array((linphase - linyfc) / (4.*Qr)).T`: the subtraction and
division broadcast `linyfc` and `4.*Qr` along each row of `linphase`; shape
(ntime, nkid). -/
noncomputable def fshift_pre (r : RHDUs) (nkid : ℕ) : List (List ℝ) :=
  (linphase r nkid).map
    (fun row => (row.zipWith (fun a b => a - b) (linyfc r)).zipWith
      (fun a b => a / b) ((Qr r).map (fun q => 4 * q)))

/-- The final transpose: `fshift` has shape (nkid, ntime). -/
noncomputable def fshift (r : RHDUs) (nkid : ℕ) : List (List ℝ) :=
  npT (fshift_pre r nkid) 0

/-- `p0 = ddb['KIDRESP'].data['cal params'].T[0]` -/
noncomputable def cal_p0 (ddb : DDB) : List ℝ := ddb.kidresp_cal_params.map (fun v => v.1)

/-- `etaf = ddb['KIDRESP'].data['cal params'].T[1]` -/
noncomputable def cal_etaf (ddb : DDB) : List ℝ := ddb.kidresp_cal_params.map (fun v => v.2.1)

/-- `T0 = ddb['KIDRESP'].data['cal params'].T[2]` -/
noncomputable def cal_T0 (ddb : DDB) : List ℝ := ddb.kidresp_cal_params.map (fun v => v.2.2)

/-- The `Tsignal` list built by the loop of `calibrate_to_power`: one row per
kid; a row of NaN (`none`) when the kid's `masterid` is negative, otherwise
`Tlos_model` applied to the kid's `fshift` row.  (The Python `KeyError` on a
kidid missing from `kiddict` is handled by the guard in
`calibrate_to_power`; under that guard the `getD (-1)` default is never
used.) -/
noncomputable def Tsignal (pixelid : ℕ) (Troom Tamb : ℝ) (r : RHDUs) (ddb : DDB) :
    List (List (Option ℝ)) :=
  (List.range (r.readout_nkid pixelid)).map (fun (i : ℕ) =>
    if (kiddict ddb (i : ℤ)).getD (-1) < 0 then
      ((fshift r (r.readout_nkid pixelid)).getD i []).map (fun _ => (none : Option ℝ))
    else
      (Tlos_model_arr ((fshift r (r.readout_nkid pixelid)).getD i [])
        ((cal_p0 ddb).getD i 0) ((cal_etaf ddb).getD i 0) ((cal_T0 ddb).getD i 0)
        Troom Tamb).map some)

/-- `calibrate_to_power(pixelid, Troom, Tamb, rhdus, ddb)`: returns
`np.array(Tsignal).T` (one row per timestamp, one column per kid), or `none`
when some kid index in `range(nkid)` is missing from `kiddict` (Python
`KeyError`). -/
noncomputable def calibrate_to_power (pixelid : ℕ) (Troom Tamb : ℝ) (r : RHDUs)
    (ddb : DDB) : Option (List (List (Option ℝ))) :=
  if (List.range (r.readout_nkid pixelid)).all (fun (i : ℕ) => (kiddict ddb (i : ℤ)).isSome) then
    some (npT (Tsignal pixelid Troom Tamb r ddb) none)
  else none

/-- Python's zip of four lists (truncates to the shortest). -/
def zip4 (a : List α) (b : List β) (c : List γ) (d : List δ) :
    List (α × β × γ × δ) :=
  (a.zip (b.zip (c.zip d))).map (fun p => (p.1, p.2.1, p.2.2.1, p.2.2.2))

/-- The row 4-tuples of the loop
`for (i, j, k, l) in zip(kidid, masterid, F_filter, Q_filter)` in
`get_maskid_corresp`. -/
def kidfilt_rows (ddb : DDB) : List (ℤ × ℤ × (ℝ × ℝ) × (ℝ × ℝ)) :=
  zip4 ddb.kidfilt_kidid ddb.kidfilt_masterid ddb.kidfilt_F ddb.kidfilt_Q

/-- `kiddict` as built in `get_maskid_corresp` (from the 4-way zip). -/
def gm_kiddict (ddb : DDB) : ℤ → Option ℤ :=
  pyDict ((kidfilt_rows ddb).map (fun p => (p.1, p.2.1)))

/-- `kidfilt` dict of `get_maskid_corresp`: `kidfilt[i] = (k[0], l[0])`. -/
def gm_kidfilt (ddb : DDB) : ℤ → Option (ℝ × ℝ) :=
  pyDict ((kidfilt_rows ddb).map (fun p => (p.1, (p.2.2.1.1, p.2.2.2.1))))

/-- `kidname` dict of `get_maskid_corresp`: masterid ↦ attribute over the
KIDDES rows. -/
def kidname (ddb : DDB) : ℤ → Option String :=
  pyDict ((ddb.kiddes_masterid.zip ddb.kiddes_attr).map (fun p => (p.1, p.2)))

/-- The `if kind==...` chain of `get_maskid_corresp` assigning the numeric
`attr` code to a kind string. -/
def attr_code (kind : String) : ℤ :=
  if kind = "wideband" then 0
  else if kind = "filter" then 1
  else if kind = "blind" then 2
  else if kind = "Al" then 3
  else if kind = "NbTiN" then 4
  else -1

/-- The `kind` string chosen for kid `i` in `get_maskid_corresp`:
`'unknown'` when `masterid < 0`, else `kidname[masterid]` (`getD ""` is only
reached when `kidname[masterid]` would raise `KeyError`; that case is
excluded by the guard in `get_maskid_corresp`). -/
def kid_kind (ddb : DDB) (masterid : ℤ) : String :=
  if masterid < 0 then "unknown" else (kidname ddb masterid).getD ""

/-- `get_maskid_corresp(pixelid, ddb)`: returns the five parallel lists
`(masterids, kidids, kidtypes, kidfreqs, kidQs)`, or `none` when the loop
would raise a Python `KeyError` (a kid index missing from `kiddict` /
`kidfilt`, or a nonnegative `masterid` missing from `kidname`). -/
noncomputable def get_maskid_corresp (pixelid : ℕ) (ddb : DDB) :
    Option (List ℤ × List ℤ × List ℤ × List ℝ × List ℝ) :=
  if (List.range (ddb.kidfilt_nkid pixelid)).all (fun (i : ℕ) =>
      (gm_kiddict ddb (i : ℤ)).isSome && (gm_kidfilt ddb (i : ℤ)).isSome &&
      (decide ((gm_kiddict ddb (i : ℤ)).getD (-1) < 0) ||
        (kidname ddb ((gm_kiddict ddb (i : ℤ)).getD (-1))).isSome)) then
    some
      ((List.range (ddb.kidfilt_nkid pixelid)).map
          (fun (i : ℕ) => (gm_kiddict ddb (i : ℤ)).getD (-1)),
        (List.range (ddb.kidfilt_nkid pixelid)).map (fun (i : ℕ) => (i : ℤ)),
        (List.range (ddb.kidfilt_nkid pixelid)).map
          (fun (i : ℕ) => attr_code (kid_kind ddb ((gm_kiddict ddb (i : ℤ)).getD (-1)))),
        (List.range (ddb.kidfilt_nkid pixelid)).map
          (fun (i : ℕ) => ((gm_kidfilt ddb (i : ℤ)).getD (0, 0)).1),
        (List.range (ddb.kidfilt_nkid pixelid)).map
          (fun (i : ℕ) => ((gm_kidfilt ddb (i : ℤ)).getD (0, 0)).2))
  else none

/-- A FITS header card: keyword, value, comment. -/
structure Card (V : Type) where
  key : String
  val : V
  com : String
deriving DecidableEq

/-- `header[key] = (value, comment)` on an astropy `Header`: update the card
in place when the keyword is already present, else append a new card. -/
def headerSet (h : List (Card V)) (k : String) (v : V) (c : String) :
    List (Card V) :=
  if h.any (fun card => card.key == k) then
    h.map (fun card => if card.key = k then ⟨k, v, c⟩ else card)
  else h ++ [⟨k, v, c⟩]

/-- `hdu.header.comments[key] = comment`: update the comment of an existing
card; astropy raises `KeyError` when the keyword is absent (`none`). -/
def setComment (h : List (Card V)) (k c : String) : Option (List (Card V)) :=
  if h.any (fun card => card.key == k) then
    some (h.map (fun card =>
      if card.key = k then ⟨card.key, card.val, c⟩ else card))
  else none

/-- A `fits.Column(name=..., format=..., array=..., unit=...)`. -/
structure FitsColumn (A : Type) where
  name : String
  format : String
  array : A
  unit : String
deriving DecidableEq

/-- A binary-table HDU: its header cards and its columns.
`fits.BinTableHDU.from_columns(columns, header)` is modelled as carrying the
given header verbatim (the structural keywords astropy adds automatically,
such as `XTENSION`, are outside the model). -/
structure BinTableHDU (V A : Type) where
  header : List (Card V)
  columns : List (FitsColumn A)
deriving DecidableEq

/-- The `hdu_dict` argument of `create_bintablehdu`: five Python dicts,
modelled as their `.items()` sequences (insertion-ordered key/value pairs).
`V` is the type of header values, `A` the type of column data arrays. -/
structure HduDict (V A : Type) where
  hdr_vals : List (String × V)
  hdr_coms : List (String × String)
  col_vals : List (String × A)
  col_form : List (String × String)
  col_unit : List (String × String)

/-- `create_bintablehdu(hd)`: build the header from
`zip(hd['hdr_vals'].items(), hd['hdr_coms'].items())`, the columns from
`zip(hd['col_vals'].items(), hd['col_form'].items(), hd['col_unit'].items())`,
then re-assign every comment of `hd['hdr_coms']` by keyword
(`hdu.header.comments[key] = comment`); `none` models the `KeyError` astropy
raises when such a keyword is absent from the header. -/
def create_bintablehdu (hd : HduDict V A) : Option (BinTableHDU V A) :=
  let header := (hd.hdr_vals.zip hd.hdr_coms).foldl
    (fun h p => headerSet h p.1.1 p.1.2 p.2.2) []
  let columns := (hd.col_vals.zip (hd.col_form.zip hd.col_unit)).map
    (fun p => ⟨p.1.1, p.2.1.2, p.1.2, p.2.2.2⟩)
  (hd.hdr_coms.foldl (fun acc p => acc.bind (fun h => setComment h p.1 p.2))
    (some header)).map (fun h => ⟨h, columns⟩)

/-- The Python exceptions raised by the embedded functions. -/
inductive PyErr where
  | valueError
  | nameError
  | indexError
  | ioError
  | fileNotFound
  | fileExists
deriving DecidableEq

/-- Python `'needle' in haystack` (substring test) for strings. -/
def strIn (needle hay : String) : Bool :=
  (List.range (hay.toList.length + 1)).any
    (fun k => needle.toList.isPrefixOf (hay.toList.drop k))

/-- Python `str.split()` with no argument: split on runs of whitespace,
discarding empty fields. -/
def pySplit (s : String) : List String :=
  (s.split (fun c => c = ' ' || c = '\t' || c = '\n' || c = '\r')).filter
    (fun w => w ≠ "")

/-- Python `str.strip(chars)`: remove leading and trailing characters
belonging to `cs`. -/
def pyStrip (cs : List Char) (s : String) : String :=
  ((s.toList.dropWhile (fun c => c ∈ cs)).reverse.dropWhile
    (fun c => c ∈ cs)).reverse.asString

/-- The `equinox` variable of `load_obsinst`: the integer default `2000`, or
the string read from an `EPOCH` line. -/
inductive EquinoxVal where
  | defaultInt
  | fromFile (s : String)
deriving DecidableEq

/-- The local variables of the parsing loop of `load_obsinst`; `none` models
a Python variable that has not been assigned yet (using it raises
`NameError`). -/
structure ObsParseState where
  equinox : EquinoxVal
  trktype : Option String
  obs_object : Option String
  srcpos : Option (List ℝ)
  observer : Option String

/-- The dict returned by `load_obsinst`. -/
structure ObsInfo where
  observer : String
  obs_object : String
  ra : ℝ
  dec : ℝ
  equinox : EquinoxVal

/-- One iteration of the `for line in f` loop of `load_obsinst`.  `pyFloat`
models Python's `float()` parser (`none` = `ValueError`).  The
`(pySplit line).getLastD ""` default is unreachable: a line containing the
matched `SET ...` phrase splits into at least three fields. -/
def obsinst_step (pyFloat : String → Option ℝ) (st : ObsParseState)
    (line : String) : Except PyErr ObsParseState :=
  if strIn "SET ANTENNA_G TRK_TYPE" line then
    .ok { st with trktype := some (pyStrip ['\''] ((pySplit line).getLastD "")) }
  else if strIn "SET ANTENNA_G SRC_NAME" line then
    .ok { st with obs_object := some (pyStrip ['\''] ((pySplit line).getLastD "")) }
  else if strIn "SET ANTENNA_G SRC_POS" line then
    match ((pyStrip ['(', ')']
        ((pySplit line).getLastD "")).splitOn ",").mapM pyFloat with
    | some xs => .ok { st with srcpos := some xs }
    | none => .error .valueError
  else if strIn "SET ANTENNA_G EPOCH" line then
    .ok { st with equinox :=
      EquinoxVal.fromFile (pyStrip ['\'', 'J', 'B'] ((pySplit line).getLastD "")) }
  else if strIn "SET DES OBS_USER" line then
    .ok { st with observer := some (pyStrip ['\''] ((pySplit line).getLastD "")) }
  else
    .ok st

/-- The code after the parsing loop of `load_obsinst`: evaluate `trktype`
(`NameError` when never assigned), take `ra`/`dec` from `srcpos` when
tracking is `'RADEC'` (`NameError` when `srcpos` unassigned, `IndexError`
when it has fewer than two entries), then build the result dict
(`NameError` when `observer` or `obs_object` was never assigned). -/
def obsinst_finish (st : ObsParseState) : Except PyErr ObsInfo :=
  match st.trktype with
  | none => .error .nameError
  | some trk =>
    if trk = "RADEC" then
      match st.srcpos with
      | none => .error .nameError
      | some sp =>
        match sp.get? 0, sp.get? 1 with
        | some ra, some dec =>
          match st.observer, st.obs_object with
          | some observer, some obj =>
            .ok ⟨observer, obj, ra, dec, st.equinox⟩
          | _, _ => .error .nameError
        | _, _ => .error .indexError
    else
      match st.observer, st.obs_object with
      | some observer, some obj => .ok ⟨observer, obj, 0, 0, st.equinox⟩
      | _, _ => .error .nameError

/-- `load_obsinst(obsinst)`: reject paths not containing `'.obs'` before any
file access, then open the file (`fs` models the filesystem: the list of
lines of each readable path) and parse it.  The second component is the list
of files opened during the call. -/
noncomputable def load_obsinst (pyFloat : String → Option ℝ) (obsinst : String)
    (fs : String → Option (List String)) :
    Except PyErr ObsInfo × List String :=
  if ¬ strIn ".obs" obsinst then (.error .valueError, [])
  else
    match fs obsinst with
    | none => (.error .ioError, [obsinst])
    | some lines =>
      ((lines.foldlM (obsinst_step pyFloat)
        ⟨.defaultInt, none, none, none, none⟩).bind obsinst_finish, [obsinst])

/-- One external reduction script invocation performed by `reduce`. -/
inductive ScriptRun where
  | configure (data_dir output_dir : String)
  | fitSweep
  | saveFits
deriving DecidableEq

/-- The three script invocations of `reduce`, in order. -/
def reduceScripts (data_dir output_dir : String) : List ScriptRun :=
  [.configure data_dir output_dir, .fitSweep, .saveFits]

/-- `reduce(data_dir, output_dir)` from `demerge/reduce/__init__.py`.
`resolve` models `Path.resolve`, `path_exists` the filesystem existence
test at entry, and `glob_reduced` the list
`list(output_dir.glob("reduced_*.fits"))` as observed after the three
external scripts have run (the scripts are external collaborators, so their
effect on the output directory is a parameter).  The second component is the
list of script invocations performed. -/
def reduce (data_dir output_dir : String) (resolve : String → String)
    (path_exists : String → Bool) (glob_reduced : List String) :
    Except PyErr String × List ScriptRun :=
  if ¬ path_exists (resolve data_dir) then
    (.error .fileNotFound, [])
  else if path_exists (resolve output_dir) then
    (.error .fileExists, [])
  else
    match glob_reduced with
    | [] => (.error .indexError,
        reduceScripts (resolve data_dir) (resolve output_dir))
    | p :: _ => (.ok p, reduceScripts (resolve data_dir) (resolve output_dir))

/-- `calibrate_to_power` in explicit state-passing form: the state is the
pair of input FITS objects `(rhdus, ddb)`; every access the source performs
on them is a read returning the value and the state, the state is threaded
through all reads, and the final state is returned with the result. -/
noncomputable def calibrate_to_power_run (pixelid : ℕ) (Troom Tamb : ℝ)
    (s0 : RHDUs × DDB) : Option (List (List (Option ℝ))) × (RHDUs × DDB) :=
  let r1 := (s0.1.readout_nkid pixelid, s0)
  let r2 := (kiddict r1.2.2, r1.2)
  let r3 := (fshift r2.2.1 r1.1, r2.2)
  let r4 := ((cal_p0 r3.2.2, cal_etaf r3.2.2, cal_T0 r3.2.2), r3.2)
  (if (List.range r1.1).all (fun (i : ℕ) => (r2.1 (i : ℤ)).isSome) then
    some (npT ((List.range r1.1).map (fun (i : ℕ) =>
      if (r2.1 (i : ℤ)).getD (-1) < 0 then
        (r3.1.getD i []).map (fun _ => (none : Option ℝ))
      else
        (Tlos_model_arr (r3.1.getD i []) (r4.1.1.getD i 0) (r4.1.2.1.getD i 0)
          (r4.1.2.2.getD i 0) Troom Tamb).map some)) none)
  else none, r4.2)

/-- `header.comments[key]` as an observation: the comment of the first card
carrying `key`. -/
def headerComment (h : List (Card V)) (k : String) : Option String :=
  ((h.filter (fun card => card.key == k)).head?).map (fun card => card.com)

/-- Example reduced FITS: one kid, one timestamp, `linPh = 2`, `linyfc = 1`,
`Qr = 1`. -/
noncomputable def rEx : RHDUs where
  readout_nkid := fun _ => 1
  readout_amp_ph_linph := fun _ => [(0, 0, 2)]
  kidsinfo_yfc_linyfc := [(0, 1)]
  kidsinfo_Qr_dQr := [(1, 0)]

/-- Example DDB: one kid with `masterid = 5`, attribute `'wideband'`,
calibration parameters `(1, 1, 0)`. -/
noncomputable def ddbEx : DDB where
  kidfilt_nkid := fun _ => 1
  kidfilt_kidid := [0]
  kidfilt_masterid := [5]
  kidfilt_F := [(0, 0)]
  kidfilt_Q := [(0, 0)]
  kiddes_masterid := [5]
  kiddes_attr := ["wideband"]
  kidresp_cal_params := [(1, 1, 0)]

/-- Example DDB whose single kid has a negative `masterid`. -/
noncomputable def ddbExNeg : DDB where
  kidfilt_nkid := fun _ => 1
  kidfilt_kidid := [0]
  kidfilt_masterid := [-1]
  kidfilt_F := [(0, 0)]
  kidfilt_Q := [(0, 0)]
  kiddes_masterid := []
  kiddes_attr := []
  kidresp_cal_params := [(1, 1, 0)]

/-- Example `hdu_dict` whose `hdr_vals` and `hdr_coms` list the same keys in
different orders. -/
def hdEx : HduDict ℤ (List ℤ) where
  hdr_vals := [("A", 1), ("B", 2)]
  hdr_coms := [("B", "cb"), ("A", "ca")]
  col_vals := []
  col_form := []
  col_unit := []

/-- Example well-formed `hdu_dict` (same key order in `hdr_vals` and
`hdr_coms`). -/
def hdW : HduDict ℤ (List ℤ) where
  hdr_vals := [("A", 7)]
  hdr_coms := [("A", "com")]
  col_vals := [("C", [3])]
  col_form := [("C", "J")]
  col_unit := [("C", "K")]

/-! Access lemmas for the list embedding. -/

theorem headD_eq_getD_zero (l : List α) (d : α) : l.headD d = l.getD 0 d := by
  cases l <;> rfl

theorem getD_map_of_lt (f : α → β) (l : List α) (i : ℕ) (da : α) (db : β)
    (h : i < l.length) : (l.map f).getD i db = f (l.getD i da) := by
  rw [List.getD_eq_getElem _ _ (by simpa using h), List.getElem_map,
    List.getD_eq_getElem _ _ h]

theorem getD_zipWith_of_lt (f : α → β → γ) (l1 : List α) (l2 : List β) (i : ℕ)
    (d1 : α) (d2 : β) (d3 : γ) (h1 : i < l1.length) (h2 : i < l2.length) :
    (List.zipWith f l1 l2).getD i d3 = f (l1.getD i d1) (l2.getD i d2) := by
  rw [List.getD_eq_getElem _ _ (by rw [List.length_zipWith]; omega),
    List.getD_eq_getElem _ _ h1, List.getD_eq_getElem _ _ h2]
  exact List.getElem_zipWith

theorem getD_range_of_lt (n i : ℕ) (d : ℕ) (h : i < n) :
    (List.range n).getD i d = i := by
  rw [List.getD_eq_getElem _ _ (by simpa using h), List.getElem_range]

theorem npT_length (m : List (List α)) (d : α) :
    (npT m d).length = (m.headD []).length := by
  simp [npT]

theorem npT_getD_row (m : List (List α)) (d : α) (t : ℕ)
    (ht : t < (m.headD []).length) :
    (npT m d).getD t [] = m.map (fun row => row.getD t d) := by
  unfold npT
  rw [getD_map_of_lt _ _ _ 0 _ (by simpa using ht), getD_range_of_lt _ _ _ ht]

theorem npT_row_length (m : List (List α)) (d : α) (t : ℕ)
    (ht : t < (m.headD []).length) :
    ((npT m d).getD t []).length = m.length := by
  rw [npT_getD_row m d t ht, List.length_map]

theorem npT_getD_getD (m : List (List α)) (d : α) (t i : ℕ)
    (ht : t < (m.headD []).length) (hi : i < m.length) :
    ((npT m d).getD t []).getD i d = (m.getD i []).getD t d := by
  rw [npT_getD_row m d t ht, getD_map_of_lt _ _ _ [] _ hi]

theorem Tlos_model_arr_length (dx : List ℝ) (p0 etaf T0 Troom Tamb : ℝ) :
    (Tlos_model_arr dx p0 etaf T0 Troom Tamb).length = dx.length := by
  simp [Tlos_model_arr]

theorem Tlos_model_arr_getD (dx : List ℝ) (p0 etaf T0 Troom Tamb : ℝ)
    (k : ℕ) (hk : k < dx.length) :
    (Tlos_model_arr dx p0 etaf T0 Troom Tamb).getD k 0 =
      Tlos_model (dx.getD k 0) p0 etaf T0 Troom Tamb := by
  unfold Tlos_model_arr Tlos_model
  rw [getD_map_of_lt _ _ _ 0 _ (by simpa using hk),
    getD_map_of_lt _ _ _ 0 _ (by simpa using hk),
    getD_map_of_lt _ _ _ 0 _ (by simpa using hk),
    getD_map_of_lt _ _ _ 0 _ hk]

/-! Shape and element lemmas for the stages of `calibrate_to_power`. -/

theorem readout_cols_length (r : RHDUs) (nkid : ℕ) :
    (readout_cols r nkid).length = nkid := by
  simp [readout_cols]

theorem readout_cols_getD (r : RHDUs) (nkid i : ℕ) (hi : i < nkid) :
    (readout_cols r nkid).getD i [] =
      (r.readout_amp_ph_linph i).map (fun v => v.2.2) := by
  unfold readout_cols
  rw [getD_map_of_lt _ _ _ 0 _ (by simpa using hi), getD_range_of_lt _ _ _ hi]

theorem readout_cols_headD_length (r : RHDUs) (nkid ntime : ℕ)
    (hlen : ∀ j, j < nkid → (r.readout_amp_ph_linph j).length = ntime)
    (hpos : 0 < nkid) :
    ((readout_cols r nkid).headD []).length = ntime := by
  rw [headD_eq_getD_zero, readout_cols_getD r nkid 0 hpos, List.length_map]
  exact hlen 0 hpos

theorem linphase_length (r : RHDUs) (nkid ntime : ℕ)
    (hlen : ∀ j, j < nkid → (r.readout_amp_ph_linph j).length = ntime)
    (hpos : 0 < nkid) :
    (linphase r nkid).length = ntime := by
  unfold linphase
  rw [npT_length]
  exact readout_cols_headD_length r nkid ntime hlen hpos

theorem linphase_row_length (r : RHDUs) (nkid ntime t : ℕ)
    (hlen : ∀ j, j < nkid → (r.readout_amp_ph_linph j).length = ntime)
    (hpos : 0 < nkid) (ht : t < ntime) :
    ((linphase r nkid).getD t []).length = nkid := by
  unfold linphase
  rw [npT_row_length _ _ t
    (by rw [readout_cols_headD_length r nkid ntime hlen hpos]; exact ht)]
  exact readout_cols_length r nkid

theorem linphase_getD (r : RHDUs) (nkid ntime t i : ℕ)
    (hlen : ∀ j, j < nkid → (r.readout_amp_ph_linph j).length = ntime)
    (hi : i < nkid) (ht : t < ntime) :
    ((linphase r nkid).getD t []).getD i 0 =
      ((r.readout_amp_ph_linph i).getD t (0, 0, 0)).2.2 := by
  have hpos : 0 < nkid := Nat.lt_of_le_of_lt (Nat.zero_le i) hi
  unfold linphase
  rw [npT_getD_getD _ _ t i
    (by rw [readout_cols_headD_length r nkid ntime hlen hpos]; exact ht)
    (by rw [readout_cols_length]; exact hi)]
  rw [readout_cols_getD r nkid i hi,
    getD_map_of_lt _ _ _ (0, 0, 0) _ (by rw [hlen i hi]; exact ht)]

theorem linyfc_length (r : RHDUs) :
    (linyfc r).length = r.kidsinfo_yfc_linyfc.length := by
  simp [linyfc]

theorem Qr_length (r : RHDUs) :
    (Qr r).length = r.kidsinfo_Qr_dQr.length := by
  simp [Qr]

theorem fshift_pre_length (r : RHDUs) (nkid ntime : ℕ)
    (hlen : ∀ j, j < nkid → (r.readout_amp_ph_linph j).length = ntime)
    (hpos : 0 < nkid) :
    (fshift_pre r nkid).length = ntime := by
  unfold fshift_pre
  rw [List.length_map]
  exact linphase_length r nkid ntime hlen hpos

theorem fshift_pre_row_length (r : RHDUs) (nkid ntime t : ℕ)
    (hlen : ∀ j, j < nkid → (r.readout_amp_ph_linph j).length = ntime)
    (hy : r.kidsinfo_yfc_linyfc.length = nkid)
    (hq : r.kidsinfo_Qr_dQr.length = nkid)
    (hpos : 0 < nkid) (ht : t < ntime) :
    ((fshift_pre r nkid).getD t []).length = nkid := by
  unfold fshift_pre
  rw [getD_map_of_lt _ _ _ [] _
    (by rw [linphase_length r nkid ntime hlen hpos]; exact ht)]
  rw [List.length_zipWith, List.length_zipWith, List.length_map,
    linphase_row_length r nkid ntime t hlen hpos ht, linyfc_length, Qr_length,
    hy, hq]
  omega

theorem fshift_pre_headD_length (r : RHDUs) (nkid ntime : ℕ)
    (hlen : ∀ j, j < nkid → (r.readout_amp_ph_linph j).length = ntime)
    (hy : r.kidsinfo_yfc_linyfc.length = nkid)
    (hq : r.kidsinfo_Qr_dQr.length = nkid)
    (hpos : 0 < nkid) (hnt : 0 < ntime) :
    ((fshift_pre r nkid).headD []).length = nkid := by
  rw [headD_eq_getD_zero]
  exact fshift_pre_row_length r nkid ntime 0 hlen hy hq hpos hnt

theorem fshift_row_length (r : RHDUs) (nkid ntime i : ℕ)
    (hlen : ∀ j, j < nkid → (r.readout_amp_ph_linph j).length = ntime)
    (hy : r.kidsinfo_yfc_linyfc.length = nkid)
    (hq : r.kidsinfo_Qr_dQr.length = nkid)
    (hi : i < nkid) (hnt : 0 < ntime) :
    ((fshift r nkid).getD i []).length = ntime := by
  have hpos : 0 < nkid := Nat.lt_of_le_of_lt (Nat.zero_le i) hi
  unfold fshift
  rw [npT_row_length _ _ i
    (by rw [fshift_pre_headD_length r nkid ntime hlen hy hq hpos hnt]; exact hi)]
  exact fshift_pre_length r nkid ntime hlen hpos

theorem fshift_getD (r : RHDUs) (nkid ntime i t : ℕ)
    (hlen : ∀ j, j < nkid → (r.readout_amp_ph_linph j).length = ntime)
    (hy : r.kidsinfo_yfc_linyfc.length = nkid)
    (hq : r.kidsinfo_Qr_dQr.length = nkid)
    (hi : i < nkid) (ht : t < ntime) :
    ((fshift r nkid).getD i []).getD t 0 =
      (((r.readout_amp_ph_linph i).getD t (0, 0, 0)).2.2
          - (r.kidsinfo_yfc_linyfc.getD i (0, 0)).2)
        / (4 * (r.kidsinfo_Qr_dQr.getD i (0, 0)).1) := by
  have hpos : 0 < nkid := Nat.lt_of_le_of_lt (Nat.zero_le i) hi
  have hnt : 0 < ntime := Nat.lt_of_le_of_lt (Nat.zero_le t) ht
  unfold fshift
  rw [npT_getD_getD _ _ i t
    (by rw [fshift_pre_headD_length r nkid ntime hlen hy hq hpos hnt]; exact hi)
    (by rw [fshift_pre_length r nkid ntime hlen hpos]; exact ht)]
  unfold fshift_pre
  rw [getD_map_of_lt _ _ _ [] _
    (by rw [linphase_length r nkid ntime hlen hpos]; exact ht)]
  rw [getD_zipWith_of_lt _ _ _ i 0 0 0
    (by rw [List.length_zipWith, linphase_row_length r nkid ntime t hlen hpos ht,
      linyfc_length, hy]; omega)
    (by rw [List.length_map, Qr_length, hq]; exact hi)]
  rw [getD_zipWith_of_lt _ _ _ i 0 0 0
    (by rw [linphase_row_length r nkid ntime t hlen hpos ht]; exact hi)
    (by rw [linyfc_length, hy]; exact hi)]
  rw [linphase_getD r nkid ntime t i hlen hi ht]
  rw [getD_map_of_lt _ _ _ 0 _ (by rw [Qr_length, hq]; exact hi)]
  unfold linyfc Qr
  rw [getD_map_of_lt _ _ _ (0, 0) _ (by rw [hy]; exact hi),
    getD_map_of_lt _ _ _ (0, 0) _ (by rw [hq]; exact hi)]

theorem Tsignal_length (pixelid : ℕ) (Troom Tamb : ℝ) (r : RHDUs) (ddb : DDB) :
    (Tsignal pixelid Troom Tamb r ddb).length = r.readout_nkid pixelid := by
  simp [Tsignal]

theorem Tsignal_row_length (pixelid : ℕ) (Troom Tamb : ℝ) (r : RHDUs)
    (ddb : DDB) (ntime i : ℕ)
    (hlen : ∀ j, j < r.readout_nkid pixelid →
      (r.readout_amp_ph_linph j).length = ntime)
    (hy : r.kidsinfo_yfc_linyfc.length = r.readout_nkid pixelid)
    (hq : r.kidsinfo_Qr_dQr.length = r.readout_nkid pixelid)
    (hi : i < r.readout_nkid pixelid) (hnt : 0 < ntime) :
    ((Tsignal pixelid Troom Tamb r ddb).getD i []).length = ntime := by
  unfold Tsignal
  rw [getD_map_of_lt _ _ _ 0 _ (by simpa using hi), getD_range_of_lt _ _ _ hi]
  split
  · rw [List.length_map]
    exact fshift_row_length r _ ntime i hlen hy hq hi hnt
  · rw [List.length_map, Tlos_model_arr_length]
    exact fshift_row_length r _ ntime i hlen hy hq hi hnt

theorem Tsignal_getD_neg (pixelid : ℕ) (Troom Tamb : ℝ) (r : RHDUs) (ddb : DDB)
    (i : ℕ) (m : ℤ) (hi : i < r.readout_nkid pixelid)
    (hm : kiddict ddb (i : ℤ) = some m) (hmneg : m < 0) :
    (Tsignal pixelid Troom Tamb r ddb).getD i [] =
      ((fshift r (r.readout_nkid pixelid)).getD i []).map
        (fun _ => (none : Option ℝ)) := by
  unfold Tsignal
  rw [getD_map_of_lt _ _ _ 0 _ (by simpa using hi), getD_range_of_lt _ _ _ hi]
  simp only [hm, Option.getD_some, if_pos hmneg]

theorem Tsignal_getD_nonneg (pixelid : ℕ) (Troom Tamb : ℝ) (r : RHDUs)
    (ddb : DDB) (i : ℕ) (m : ℤ) (hi : i < r.readout_nkid pixelid)
    (hm : kiddict ddb (i : ℤ) = some m) (hm0 : 0 ≤ m) :
    (Tsignal pixelid Troom Tamb r ddb).getD i [] =
      (Tlos_model_arr ((fshift r (r.readout_nkid pixelid)).getD i [])
        ((cal_p0 ddb).getD i 0) ((cal_etaf ddb).getD i 0)
        ((cal_T0 ddb).getD i 0) Troom Tamb).map some := by
  unfold Tsignal
  rw [getD_map_of_lt _ _ _ 0 _ (by simpa using hi), getD_range_of_lt _ _ _ hi]
  simp only [hm, Option.getD_some, if_neg (not_lt.mpr hm0)]

/-- **C2.** `Tlos_model dx p0 etaf T0 Troom Tamb` equals the closed-form
expression `(dx + p0*sqrt(Troom + T0))^2 / (p0^2 * etaf) - T0/etaf
- ((1 - etaf)/etaf) * Tamb` for all inputs with `p0 ≠ 0`, `etaf ≠ 0` and
`Troom + T0 ≥ 0`. -/
theorem Tlos_model_closed_form (dx p0 etaf T0 Troom Tamb : ℝ)
    (hp0 : p0 ≠ 0) (hetaf : etaf ≠ 0) (h0 : Troom + T0 ≥ 0) :
    Tlos_model dx p0 etaf T0 Troom Tamb =
      (dx + p0 * Real.sqrt (Troom + T0)) ^ 2 / (p0 ^ 2 * etaf)
        - T0 / etaf - ((1 - etaf) / etaf) * Tamb := rfl

/-- Witness for C2 at `dx = 0, p0 = 1, etaf = 1, T0 = 0, Troom = 0, Tamb = 0`. -/
theorem Tlos_model_closed_form_witness :
    Tlos_model 0 1 1 0 0 0 =
      (0 + 1 * Real.sqrt (0 + 0)) ^ 2 / (1 ^ 2 * 1) - 0 / 1 - ((1 - 1) / 1) * 0 :=
  Tlos_model_closed_form 0 1 1 0 0 0 one_ne_zero one_ne_zero (by norm_num)

/-- **C7.** `Tlos_model` is applied element-wise over arrays: entry `k` of
`Tlos_model_arr dx p0 etaf T0 Troom Tamb` is `Tlos_model dx[k] p0 etaf T0
Troom Tamb`, for every index `k` of `dx`. -/
theorem Tlos_model_arr_elementwise (dx : List ℝ) (p0 etaf T0 Troom Tamb : ℝ)
    (k : ℕ) (hk : k < dx.length) :
    (Tlos_model_arr dx p0 etaf T0 Troom Tamb).getD k 0 =
      Tlos_model (dx.getD k 0) p0 etaf T0 Troom Tamb := by
  unfold Tlos_model_arr Tlos_model
  rw [List.getD_eq_getElem _ _ (by simpa using hk), List.getD_eq_getElem _ _ hk]
  simp

/-- Witness for C7 at `dx = [5, 7]`, `k = 1`,
`p0 = 1, etaf = 1, T0 = 0, Troom = 0, Tamb = 0`. -/
theorem Tlos_model_arr_elementwise_witness :
    (Tlos_model_arr [5, 7] 1 1 0 0 0).getD 1 0 =
      Tlos_model (([5, 7] : List ℝ).getD 1 0) 1 1 0 0 0 :=
  Tlos_model_arr_elementwise [5, 7] 1 1 0 0 0 1 (by decide)

/-- **C9.** Fixed point of the calibration model: a zero frequency shift with
room and ambient temperature both `T` calibrates exactly to `T`:
`Tlos_model 0 p0 etaf T0 T T = T` whenever `p0 ≠ 0`, `etaf ≠ 0`,
`T + T0 ≥ 0`. -/
theorem Tlos_model_fixed_point (p0 etaf T0 T : ℝ)
    (hp0 : p0 ≠ 0) (hetaf : etaf ≠ 0) (h0 : T + T0 ≥ 0) :
    Tlos_model 0 p0 etaf T0 T T = T := by
  unfold Tlos_model
  rw [zero_add, mul_pow, Real.sq_sqrt h0]
  field_simp
  ring

/-- Witness for C9 at `p0 = 1, etaf = 1, T0 = 0, T = 0`. -/
theorem Tlos_model_fixed_point_witness : Tlos_model 0 1 1 0 0 0 = 0 :=
  Tlos_model_fixed_point 1 1 0 0 one_ne_zero one_ne_zero (by norm_num)

/-- **C1.** For every `pixelid`, on well-formed tables (matching row counts,
`ntime` timestamps per readout column, every kid present in `kiddict`),
`calibrate_to_power` returns an array with one row per timestamp and one
column per kid, and for a kid `i` whose `masterid` is nonnegative the entry
at row `t`, column `i` is
`Tlos_model(fshift_i[t], p0_i, etaf_i, T0_i, Troom, Tamb)` where
`fshift_i[t] = (linphase_i[t] - linyfc_i) / (4 * Qr_i)` comes from the
READOUT and KIDSINFO tables and `(p0, etaf, T0)` from the KIDRESP
`'cal params'` table of the DDB. -/
theorem calibrate_to_power_column (pixelid : ℕ) (Troom Tamb : ℝ) (r : RHDUs)
    (ddb : DDB) (ntime i t : ℕ) (m : ℤ)
    (hall : ∀ j, j < r.readout_nkid pixelid →
      (kiddict ddb (j : ℤ)).isSome = true)
    (hlen : ∀ j, j < r.readout_nkid pixelid →
      (r.readout_amp_ph_linph j).length = ntime)
    (hy : r.kidsinfo_yfc_linyfc.length = r.readout_nkid pixelid)
    (hq : r.kidsinfo_Qr_dQr.length = r.readout_nkid pixelid)
    (hp : ddb.kidresp_cal_params.length = r.readout_nkid pixelid)
    (hi : i < r.readout_nkid pixelid) (ht : t < ntime)
    (hm : kiddict ddb (i : ℤ) = some m) (hm0 : 0 ≤ m) :
    ∃ M, calibrate_to_power pixelid Troom Tamb r ddb = some M ∧
      M.length = ntime ∧
      (M.getD t []).length = r.readout_nkid pixelid ∧
      (M.getD t []).getD i none = some (Tlos_model
        ((((r.readout_amp_ph_linph i).getD t (0, 0, 0)).2.2
            - (r.kidsinfo_yfc_linyfc.getD i (0, 0)).2)
          / (4 * (r.kidsinfo_Qr_dQr.getD i (0, 0)).1))
        ((ddb.kidresp_cal_params.getD i (0, 0, 0)).1)
        ((ddb.kidresp_cal_params.getD i (0, 0, 0)).2.1)
        ((ddb.kidresp_cal_params.getD i (0, 0, 0)).2.2) Troom Tamb) := by
  have hnt : 0 < ntime := Nat.lt_of_le_of_lt (Nat.zero_le t) ht
  have hpos : 0 < r.readout_nkid pixelid := Nat.lt_of_le_of_lt (Nat.zero_le i) hi
  have hguard : (List.range (r.readout_nkid pixelid)).all
      (fun (j : ℕ) => (kiddict ddb (j : ℤ)).isSome) = true := by
    rw [List.all_eq_true]
    intro x hx
    exact hall x (List.mem_range.mp hx)
  have hTrow0 : ((Tsignal pixelid Troom Tamb r ddb).headD []).length = ntime := by
    rw [headD_eq_getD_zero]
    exact Tsignal_row_length pixelid Troom Tamb r ddb ntime 0 hlen hy hq hpos hnt
  refine ⟨npT (Tsignal pixelid Troom Tamb r ddb) none, ?_, ?_, ?_, ?_⟩
  · simp [calibrate_to_power, hguard]
  · rw [npT_length, hTrow0]
  · rw [npT_row_length _ _ t (by rw [hTrow0]; exact ht), Tsignal_length]
  · rw [npT_getD_getD _ _ t i (by rw [hTrow0]; exact ht)
      (by rw [Tsignal_length]; exact hi)]
    rw [Tsignal_getD_nonneg pixelid Troom Tamb r ddb i m hi hm hm0]
    rw [getD_map_of_lt _ _ _ 0 _ (by
      rw [Tlos_model_arr_length, fshift_row_length r _ ntime i hlen hy hq hi hnt]
      exact ht)]
    rw [Tlos_model_arr_getD _ _ _ _ _ _ t (by
      rw [fshift_row_length r _ ntime i hlen hy hq hi hnt]; exact ht)]
    rw [fshift_getD r _ ntime i t hlen hy hq hi ht]
    unfold cal_p0 cal_etaf cal_T0
    rw [getD_map_of_lt _ _ _ (0, 0, 0) _ (by rw [hp]; exact hi),
      getD_map_of_lt _ _ _ (0, 0, 0) _ (by rw [hp]; exact hi),
      getD_map_of_lt _ _ _ (0, 0, 0) _ (by rw [hp]; exact hi)]

/-- Witness for C1 on the one-kid, one-timestamp example `rEx`/`ddbEx`. -/
theorem calibrate_to_power_column_witness :
    ∃ M, calibrate_to_power 0 290 273 rEx ddbEx = some M ∧
      M.length = 1 ∧
      (M.getD 0 []).length = rEx.readout_nkid 0 ∧
      (M.getD 0 []).getD 0 none = some (Tlos_model
        ((((rEx.readout_amp_ph_linph 0).getD 0 (0, 0, 0)).2.2
            - (rEx.kidsinfo_yfc_linyfc.getD 0 (0, 0)).2)
          / (4 * (rEx.kidsinfo_Qr_dQr.getD 0 (0, 0)).1))
        ((ddbEx.kidresp_cal_params.getD 0 (0, 0, 0)).1)
        ((ddbEx.kidresp_cal_params.getD 0 (0, 0, 0)).2.1)
        ((ddbEx.kidresp_cal_params.getD 0 (0, 0, 0)).2.2) 290 273) :=
  calibrate_to_power_column 0 290 273 rEx ddbEx 1 0 0 5
    (by decide) (by decide) (by decide) (by decide) (by decide)
    (by decide) (by decide) (by decide) (by decide)

/-- **C5.** A kid `i` whose `masterid` in the DDB KIDFILT table is negative
is excluded from calibration: every entry of column `i` of the array
returned by `calibrate_to_power` is NaN (`none`). -/
theorem calibrate_to_power_nan_column (pixelid : ℕ) (Troom Tamb : ℝ)
    (r : RHDUs) (ddb : DDB) (ntime i t : ℕ) (m : ℤ)
    (hall : ∀ j, j < r.readout_nkid pixelid →
      (kiddict ddb (j : ℤ)).isSome = true)
    (hlen : ∀ j, j < r.readout_nkid pixelid →
      (r.readout_amp_ph_linph j).length = ntime)
    (hy : r.kidsinfo_yfc_linyfc.length = r.readout_nkid pixelid)
    (hq : r.kidsinfo_Qr_dQr.length = r.readout_nkid pixelid)
    (hi : i < r.readout_nkid pixelid) (ht : t < ntime)
    (hm : kiddict ddb (i : ℤ) = some m) (hmneg : m < 0) :
    ∃ M, calibrate_to_power pixelid Troom Tamb r ddb = some M ∧
      (M.getD t []).getD i none = none := by
  have hnt : 0 < ntime := Nat.lt_of_le_of_lt (Nat.zero_le t) ht
  have hpos : 0 < r.readout_nkid pixelid := Nat.lt_of_le_of_lt (Nat.zero_le i) hi
  have hguard : (List.range (r.readout_nkid pixelid)).all
      (fun (j : ℕ) => (kiddict ddb (j : ℤ)).isSome) = true := by
    rw [List.all_eq_true]
    intro x hx
    exact hall x (List.mem_range.mp hx)
  have hTrow0 : ((Tsignal pixelid Troom Tamb r ddb).headD []).length = ntime := by
    rw [headD_eq_getD_zero]
    exact Tsignal_row_length pixelid Troom Tamb r ddb ntime 0 hlen hy hq hpos hnt
  refine ⟨npT (Tsignal pixelid Troom Tamb r ddb) none, ?_, ?_⟩
  · simp [calibrate_to_power, hguard]
  · rw [npT_getD_getD _ _ t i (by rw [hTrow0]; exact ht)
      (by rw [Tsignal_length]; exact hi)]
    rw [Tsignal_getD_neg pixelid Troom Tamb r ddb i m hi hm hmneg]
    rw [getD_map_of_lt _ _ _ 0 _ (by
      rw [fshift_row_length r _ ntime i hlen hy hq hi hnt]; exact ht)]

/-- Witness for C5 on the example with `masterid = -1`. -/
theorem calibrate_to_power_nan_column_witness :
    ∃ M, calibrate_to_power 0 290 273 rEx ddbExNeg = some M ∧
      (M.getD 0 []).getD 0 none = none :=
  calibrate_to_power_nan_column 0 290 273 rEx ddbExNeg 1 0 0 (-1)
    (by decide) (by decide) (by decide) (by decide) (by decide) (by decide)
    (by decide) (by decide)

/-- **C8.** `calibrate_to_power` is a single-pass pure computation: in
state-passing form it returns the input FITS objects unchanged (no field of
`rhdus` or `ddb` is modified), and its value agrees with the direct
embedding of the function. -/
theorem calibrate_to_power_run_pure (pixelid : ℕ) (Troom Tamb : ℝ)
    (s : RHDUs × DDB) :
    (calibrate_to_power_run pixelid Troom Tamb s).2 = s ∧
    (calibrate_to_power_run pixelid Troom Tamb s).1 =
      calibrate_to_power pixelid Troom Tamb s.1 s.2 :=
  ⟨rfl, rfl⟩

/-- **C4.** For every `pixelid` and DDB (with every kid index present in the
KIDFILT dicts and every nonnegative `masterid` present in KIDDES),
`get_maskid_corresp` assigns kid `i` the type code determined by the class
`c` of its `masterid` `m` (taken to be `'unknown'` when `m < 0`): 0 for
`'wideband'`, 1 for `'filter'`, 2 for `'blind'`, 3 for `'Al'`, 4 for
`'NbTiN'`, and -1 for any other class. -/
theorem get_maskid_corresp_kidtypes (pixelid : ℕ) (ddb : DDB) (i : ℕ) (m : ℤ)
    (c : String)
    (hcov : ∀ j, j < ddb.kidfilt_nkid pixelid →
      (gm_kiddict ddb (j : ℤ)).isSome = true ∧
      (gm_kidfilt ddb (j : ℤ)).isSome = true)
    (hname : ∀ j, j < ddb.kidfilt_nkid pixelid →
      (gm_kiddict ddb (j : ℤ)).getD (-1) < 0 ∨
      (kidname ddb ((gm_kiddict ddb (j : ℤ)).getD (-1))).isSome = true)
    (hi : i < ddb.kidfilt_nkid pixelid)
    (hm : gm_kiddict ddb (i : ℤ) = some m)
    (hc : (m < 0 ∧ c = "unknown") ∨ (0 ≤ m ∧ kidname ddb m = some c)) :
    ∃ out, get_maskid_corresp pixelid ddb = some out ∧
      (out.2.2.1).getD i 0 =
        (if c = "wideband" then 0
         else if c = "filter" then 1
         else if c = "blind" then 2
         else if c = "Al" then 3
         else if c = "NbTiN" then 4
         else -1) := by
  have hguard : (List.range (ddb.kidfilt_nkid pixelid)).all (fun (j : ℕ) =>
      (gm_kiddict ddb (j : ℤ)).isSome && (gm_kidfilt ddb (j : ℤ)).isSome &&
      (decide ((gm_kiddict ddb (j : ℤ)).getD (-1) < 0) ||
        (kidname ddb ((gm_kiddict ddb (j : ℤ)).getD (-1))).isSome)) = true := by
    rw [List.all_eq_true]
    intro x hx
    have hxlt := List.mem_range.mp hx
    obtain ⟨h1, h2⟩ := hcov x hxlt
    rw [Bool.and_eq_true, Bool.and_eq_true, Bool.or_eq_true]
    refine ⟨⟨h1, h2⟩, ?_⟩
    rcases hname x hxlt with hneg | hsome
    · exact Or.inl (decide_eq_true hneg)
    · exact Or.inr hsome
  refine ⟨((List.range (ddb.kidfilt_nkid pixelid)).map
        (fun (j : ℕ) => (gm_kiddict ddb (j : ℤ)).getD (-1)),
      (List.range (ddb.kidfilt_nkid pixelid)).map (fun (j : ℕ) => (j : ℤ)),
      (List.range (ddb.kidfilt_nkid pixelid)).map
        (fun (j : ℕ) => attr_code (kid_kind ddb ((gm_kiddict ddb (j : ℤ)).getD (-1)))),
      (List.range (ddb.kidfilt_nkid pixelid)).map
        (fun (j : ℕ) => ((gm_kidfilt ddb (j : ℤ)).getD (0, 0)).1),
      (List.range (ddb.kidfilt_nkid pixelid)).map
        (fun (j : ℕ) => ((gm_kidfilt ddb (j : ℤ)).getD (0, 0)).2)), ?_, ?_⟩
  · unfold get_maskid_corresp
    rw [if_pos hguard]
  · rw [getD_map_of_lt _ _ _ 0 _ (by simpa using hi), getD_range_of_lt _ _ _ hi]
    rw [hm, Option.getD_some]
    rcases hc with ⟨hneg, hcu⟩ | ⟨hnn, hkn⟩
    · subst hcu
      unfold kid_kind attr_code
      rw [if_pos hneg]
    · unfold kid_kind attr_code
      rw [if_neg (not_lt.mpr hnn), hkn, Option.getD_some]

/-- Witness for C4 on the one-kid example `ddbEx` (`masterid = 5`, class
`'wideband'`). -/
theorem get_maskid_corresp_kidtypes_witness :
    ∃ out, get_maskid_corresp 0 ddbEx = some out ∧
      (out.2.2.1).getD 0 0 =
        (if "wideband" = "wideband" then (0 : ℤ)
         else if "wideband" = "filter" then 1
         else if "wideband" = "blind" then 2
         else if "wideband" = "Al" then 3
         else if "wideband" = "NbTiN" then 4
         else -1) :=
  get_maskid_corresp_kidtypes 0 ddbEx 0 5 "wideband"
    (by decide) (by decide) (by decide) (by decide)
    (Or.inr ⟨by decide, by decide⟩)

/-- Counterexample to C3 as stated: when `data_dir` exists, `output_dir`
does not, and the external scripts leave no `reduced_*.fits` in the output
directory, `reduce` itself raises a third error, `IndexError` (from
`list(output_dir.glob("reduced_*.fits"))[0]`), so `FileNotFoundError` and
`FileExistsError` are not its only failure conditions. -/
theorem reduce_indexerror_cex :
    reduce "data" "out" id (fun p => p == "data") [] =
      (.error .indexError, reduceScripts "data" "out") ∧
    PyErr.indexError ≠ PyErr.fileNotFound ∧
    PyErr.indexError ≠ PyErr.fileExists := by
  refine ⟨rfl, by decide, by decide⟩

/-- **C3 (amended).** `reduce` raises `FileNotFoundError` when the resolved
`data_dir` does not exist and `FileExistsError` when it does but the
resolved `output_dir` already exists; both checks happen before any external
script is invoked (the script trace is empty on these errors, so no output
is created).  In addition to these two, the only other failure `reduce`
raises itself is `IndexError`, after the scripts have run, when no
`reduced_*.fits` file exists in the output directory. -/
theorem reduce_error_behaviour (data_dir output_dir : String)
    (resolve : String → String) (path_exists : String → Bool)
    (glob_reduced : List String) :
    (path_exists (resolve data_dir) = false →
      reduce data_dir output_dir resolve path_exists glob_reduced =
        (.error .fileNotFound, [])) ∧
    (path_exists (resolve data_dir) = true →
      path_exists (resolve output_dir) = true →
      reduce data_dir output_dir resolve path_exists glob_reduced =
        (.error .fileExists, [])) ∧
    (∀ e trace,
      reduce data_dir output_dir resolve path_exists glob_reduced =
        (.error e, trace) →
      (e = .fileNotFound ∧ trace = []) ∨ (e = .fileExists ∧ trace = []) ∨
      (e = .indexError ∧ glob_reduced = [] ∧
        trace = reduceScripts (resolve data_dir) (resolve output_dir))) := by
  refine ⟨?_, ?_, ?_⟩
  · intro h
    unfold reduce
    rw [if_pos (by rw [h]; exact Bool.false_ne_true)]
  · intro h1 h2
    unfold reduce
    rw [if_neg (by rw [h1]; exact fun hc => hc rfl), if_pos h2]
  · intro e trace he
    by_cases h1 : path_exists (resolve data_dir) = true
    · by_cases h2 : path_exists (resolve output_dir) = true
      · simp [reduce, h1, h2] at he
        exact Or.inr (Or.inl ⟨he.1.symm, he.2⟩)
      · cases hg : glob_reduced with
        | nil =>
          simp [reduce, h1, h2, hg] at he
          exact Or.inr (Or.inr ⟨he.1.symm, rfl, he.2.symm⟩)
        | cons p ps =>
          simp [reduce, h1, h2, hg] at he
    · simp [reduce, h1] at he
      exact Or.inl ⟨he.1.symm, he.2⟩

/-- Witness for C3 (amended): a filesystem in which nothing exists, so
`reduce` fails with `FileNotFoundError` and runs no script. -/
theorem reduce_error_behaviour_witness :
    reduce "data" "out" id (fun _ => false) [] =
      (.error .fileNotFound, []) :=
  (reduce_error_behaviour "data" "out" id (fun _ => false) []).1 rfl

/-- **C10.** `load_obsinst` raises `ValueError` whenever the substring
`'.obs'` does not occur in the given path, and in that case no file is
opened (the trace of opened files is empty). -/
theorem load_obsinst_guard (pyFloat : String → Option ℝ) (obsinst : String)
    (fs : String → Option (List String))
    (h : strIn ".obs" obsinst = false) :
    load_obsinst pyFloat obsinst fs = (.error .valueError, []) := by
  unfold load_obsinst
  rw [if_pos (by rw [h]; exact Bool.false_ne_true)]

/-- Witness for C10 at the path `'readme.txt'`. -/
theorem load_obsinst_guard_witness :
    load_obsinst (fun _ => none) "readme.txt" (fun _ => none) =
      (.error .valueError, []) :=
  load_obsinst_guard (fun _ => none) "readme.txt" (fun _ => none) (by decide)

/-! Lemmas for `create_bintablehdu`. -/

theorem headerSet_fresh (h : List (Card V)) (k : String) (v : V) (c : String)
    (hfresh : ∀ card ∈ h, card.key ≠ k) :
    headerSet h k v c = h ++ [⟨k, v, c⟩] := by
  unfold headerSet
  rw [if_neg ?hc]
  case hc =>
    intro hc
    obtain ⟨card, hcard, hbeq⟩ := List.any_eq_true.mp hc
    exact hfresh card hcard (by simpa using hbeq)

theorem headerSet_foldl (ps : List ((String × V) × (String × String)))
    (acc : List (Card V))
    (hfresh : ∀ p ∈ ps, ∀ card ∈ acc, card.key ≠ p.1.1)
    (hnodup : (ps.map (fun p => p.1.1)).Nodup) :
    ps.foldl (fun h p => headerSet h p.1.1 p.1.2 p.2.2) acc =
      acc ++ ps.map (fun p => ⟨p.1.1, p.1.2, p.2.2⟩) := by
  induction ps generalizing acc with
  | nil => simp
  | cons p ps ih =>
    rw [List.map_cons] at hnodup
    obtain ⟨hnotin, hnd⟩ := List.nodup_cons.mp hnodup
    have hf : ∀ q ∈ ps, ∀ card ∈ acc ++ [(⟨p.1.1, p.1.2, p.2.2⟩ : Card V)],
        card.key ≠ q.1.1 := by
      intro q hq card hcard
      rcases List.mem_append.mp hcard with hc1 | hc2
      · exact hfresh q (List.mem_cons_of_mem p hq) card hc1
      · have hcc : card = (⟨p.1.1, p.1.2, p.2.2⟩ : Card V) := by simpa using hc2
        subst hcc
        intro hkey
        apply hnotin
        rw [show p.1.1 = q.1.1 from hkey]
        exact List.mem_map_of_mem _ hq
    rw [List.foldl_cons,
      headerSet_fresh acc p.1.1 p.1.2 p.2.2
        (fun card hc => hfresh p (List.mem_cons_self p ps) card hc)]
    refine (ih (acc ++ [⟨p.1.1, p.1.2, p.2.2⟩]) hf hnd).trans ?_
    simp

theorem setComment_of_mem_eq (h : List (Card V)) (k c : String)
    (hmem : ∃ card ∈ h, card.key = k)
    (hcom : ∀ card ∈ h, card.key = k → card.com = c) :
    setComment h k c = some h := by
  unfold setComment
  rw [if_pos ?hp]
  case hp =>
    obtain ⟨card, hcard, hkey⟩ := hmem
    rw [List.any_eq_true]
    exact ⟨card, hcard, by simp [hkey]⟩
  congr 1
  have hfix : ∀ card ∈ h,
      (if card.key = k then (⟨card.key, card.val, c⟩ : Card V) else card)
        = id card := by
    intro card hcard
    by_cases hk : card.key = k
    · have := hcom card hcard hk
      cases card
      simp_all
    · rw [if_neg hk]
      rfl
  rw [List.map_congr_left hfix, List.map_id]

theorem setComment_foldl (coms : List (String × String)) (h : List (Card V))
    (hc : ∀ p ∈ coms, (∃ card ∈ h, card.key = p.1) ∧
      (∀ card ∈ h, card.key = p.1 → card.com = p.2)) :
    coms.foldl (fun acc p => acc.bind (fun x => setComment x p.1 p.2))
      (some h) = some h := by
  induction coms with
  | nil => rfl
  | cons p ps ih =>
    rw [List.foldl_cons]
    have hstep : (some h).bind (fun x => setComment x p.1 p.2) = some h := by
      rw [Option.some_bind]
      exact setComment_of_mem_eq h p.1 p.2 (hc p (List.mem_cons_self p ps)).1
        (hc p (List.mem_cons_self p ps)).2
    rw [hstep]
    exact ih (fun q hq => hc q (List.mem_cons_of_mem p hq))

/-- Counterexample to C6 as stated: on `hdEx`, whose `hdr_vals` and
`hdr_coms` list the same keys in different orders, the final
`hdu.header.comments[key] = comment` loop re-assigns comments by keyword, so
key `'A'` (position 0 of `hdr_vals`, whose positionally corresponding
`hdr_coms` entry carries `'cb'`) ends up with its key-wise comment `'ca'`
instead. -/
theorem create_bintablehdu_positional_cex :
    (hdEx.hdr_vals.getD 0 ("", 0)).1 = "A" ∧
    (hdEx.hdr_coms.getD 0 ("", "")).2 = "cb" ∧
    (create_bintablehdu hdEx).map (fun hdu => headerComment hdu.header "A") =
      some (some "ca") ∧
    ("ca" : String) ≠ "cb" := by decide

/-- **C6 (amended).** For every `hdu_dict` `hd` in which `hdr_vals` and
`hdr_coms` list the same keys in the same order (with no duplicates) and
`col_form` and `col_unit` have at least as many entries as `col_vals`,
`create_bintablehdu hd` returns a binary-table HDU whose header has one card
per key of `hdr_vals`, carrying that key, its value, and the positionally
(equivalently, key-wise) corresponding comment of `hdr_coms`, and one column
per key of `col_vals`, named by that key, carrying that key's array, with
format and unit from the positionally corresponding entries of `col_form`
and `col_unit`. -/
theorem create_bintablehdu_amended {V A : Type} (hd : HduDict V A)
    (v0 : V) (a0 : A)
    (hkeys : hd.hdr_vals.map Prod.fst = hd.hdr_coms.map Prod.fst)
    (hnodup : (hd.hdr_vals.map Prod.fst).Nodup)
    (hform : hd.col_vals.length ≤ hd.col_form.length)
    (hunit : hd.col_vals.length ≤ hd.col_unit.length) :
    ∃ hdu, create_bintablehdu hd = some hdu ∧
      hdu.header.length = hd.hdr_vals.length ∧
      (∀ j, j < hd.hdr_vals.length →
        hdu.header.getD j ⟨"", v0, ""⟩ =
          ⟨(hd.hdr_vals.getD j ("", v0)).1, (hd.hdr_vals.getD j ("", v0)).2,
            (hd.hdr_coms.getD j ("", "")).2⟩) ∧
      hdu.columns.length = hd.col_vals.length ∧
      (∀ j, j < hd.col_vals.length →
        hdu.columns.getD j ⟨"", "", a0, ""⟩ =
          ⟨(hd.col_vals.getD j ("", a0)).1, (hd.col_form.getD j ("", "")).2,
            (hd.col_vals.getD j ("", a0)).2,
            (hd.col_unit.getD j ("", "")).2⟩) := by
  have hlen2 : hd.hdr_coms.length = hd.hdr_vals.length := by
    have h := congrArg List.length hkeys
    simpa using h.symm
  have hzlen : (hd.hdr_vals.zip hd.hdr_coms).length = hd.hdr_vals.length := by
    rw [List.length_zip]
    omega
  have hkeyzip : (hd.hdr_vals.zip hd.hdr_coms).map
      (fun p => p.1.1) = hd.hdr_vals.map Prod.fst := by
    rw [show (fun p : (String × V) × (String × String) => p.1.1) =
      (Prod.fst ∘ Prod.fst) from rfl]
    rw [← List.map_map, List.map_fst_zip _ _ (le_of_eq hlen2.symm)]
  have hfold1 : (hd.hdr_vals.zip hd.hdr_coms).foldl
      (fun h p => headerSet h p.1.1 p.1.2 p.2.2) [] =
      (hd.hdr_vals.zip hd.hdr_coms).map
        (fun p => (⟨p.1.1, p.1.2, p.2.2⟩ : Card V)) := by
    rw [headerSet_foldl _ [] (by intro p hp card hc; cases hc)
      (by rw [hkeyzip]; exact hnodup)]
    simp
  have hkeymap : ((hd.hdr_vals.zip hd.hdr_coms).map
      (fun p => (⟨p.1.1, p.1.2, p.2.2⟩ : Card V))).map
        (fun card => card.key) = hd.hdr_vals.map Prod.fst := by
    rw [List.map_map]
    exact hkeyzip
  have hkeyj : ∀ j, j < hd.hdr_vals.length →
      (hd.hdr_vals.getD j ("", v0)).1 = (hd.hdr_coms.getD j ("", "")).1 := by
    intro j hj
    have hj2 : j < hd.hdr_coms.length := by omega
    have hh := List.getElem_of_eq hkeys (by simpa using hj)
    rw [List.getElem_map, List.getElem_map] at hh
    rw [List.getD_eq_getElem _ _ hj, List.getD_eq_getElem _ _ hj2]
    exact hh
  have hcards : ∀ card ∈ (hd.hdr_vals.zip hd.hdr_coms).map
      (fun p => (⟨p.1.1, p.1.2, p.2.2⟩ : Card V)),
      ∃ j, j < hd.hdr_vals.length ∧
        card = ⟨(hd.hdr_vals.getD j ("", v0)).1, (hd.hdr_vals.getD j ("", v0)).2,
          (hd.hdr_coms.getD j ("", "")).2⟩ := by
    intro card hcard
    obtain ⟨q, hq, hfq⟩ := List.mem_map.mp hcard
    obtain ⟨j, hjz, hjq⟩ := List.mem_iff_getElem.mp hq
    have hjv : j < hd.hdr_vals.length := by rw [hzlen] at hjz; exact hjz
    have hjc : j < hd.hdr_coms.length := by omega
    refine ⟨j, hjv, ?_⟩
    rw [← hfq, ← hjq, List.getElem_zip]
    rw [List.getD_eq_getElem _ _ hjv, List.getD_eq_getElem _ _ hjc]
  have hnodc : (hd.hdr_coms.map Prod.fst).Nodup := hkeys ▸ hnodup
  have hcomfix : ∀ p ∈ hd.hdr_coms, ∀ card ∈ (hd.hdr_vals.zip hd.hdr_coms).map
      (fun q => (⟨q.1.1, q.1.2, q.2.2⟩ : Card V)),
      card.key = p.1 → card.com = p.2 := by
    intro p hp card hcard hkey
    obtain ⟨j, hjv, hcardeq⟩ := hcards card hcard
    obtain ⟨j2, hj2, hj2p⟩ := List.mem_iff_getElem.mp hp
    have hjc : j < hd.hdr_coms.length := by omega
    have hkeyp : (hd.hdr_coms.getD j ("", "")).1 = p.1 := by
      rw [← hkeyj j hjv]
      rw [hcardeq] at hkey
      exact hkey
    have hind : (hd.hdr_coms.map Prod.fst).get ⟨j, by simpa using hjc⟩ =
        (hd.hdr_coms.map Prod.fst).get ⟨j2, by simpa using hj2⟩ := by
      rw [List.get_eq_getElem, List.get_eq_getElem, List.getElem_map,
        List.getElem_map]
      rw [List.getD_eq_getElem _ _ hjc] at hkeyp
      rw [hkeyp, ← hj2p]
    have hjj : j = j2 := by
      have := List.Nodup.get_inj_iff hnodc |>.mp hind
      simpa using this
    subst hjj
    rw [hcardeq]
    rw [List.getD_eq_getElem _ _ hjc, hj2p]
  have hmemkeys : ∀ p ∈ hd.hdr_coms, ∃ card ∈ (hd.hdr_vals.zip hd.hdr_coms).map
      (fun q => (⟨q.1.1, q.1.2, q.2.2⟩ : Card V)), card.key = p.1 := by
    intro p hp
    have h1 : p.1 ∈ hd.hdr_vals.map Prod.fst := by
      rw [hkeys]
      exact List.mem_map_of_mem _ hp
    rw [← hkeymap] at h1
    obtain ⟨card, hcard, hk⟩ := List.mem_map.mp h1
    exact ⟨card, hcard, hk⟩
  have hmain : create_bintablehdu hd = some
      ⟨(hd.hdr_vals.zip hd.hdr_coms).map
        (fun p => (⟨p.1.1, p.1.2, p.2.2⟩ : Card V)),
      (hd.col_vals.zip (hd.col_form.zip hd.col_unit)).map
        (fun p => ⟨p.1.1, p.2.1.2, p.1.2, p.2.2.2⟩)⟩ := by
    have hdefeq : create_bintablehdu hd =
        (hd.hdr_coms.foldl (fun acc p => acc.bind (fun h => setComment h p.1 p.2))
          (some ((hd.hdr_vals.zip hd.hdr_coms).foldl
            (fun h p => headerSet h p.1.1 p.1.2 p.2.2) []))).map
          (fun h => ⟨h, (hd.col_vals.zip (hd.col_form.zip hd.col_unit)).map
            (fun p => ⟨p.1.1, p.2.1.2, p.1.2, p.2.2.2⟩)⟩) := rfl
    rw [hdefeq, hfold1,
      setComment_foldl _ _ (fun p hp => ⟨hmemkeys p hp, hcomfix p hp⟩),
      Option.map_some']
  refine ⟨_, hmain, ?_, ?_, ?_, ?_⟩
  · rw [List.length_map, hzlen]
  · intro j hj
    rw [getD_map_of_lt _ _ _ (("", v0), ("", "")) _ (by rw [hzlen]; exact hj)]
    have hjc : j < hd.hdr_coms.length := by omega
    rw [List.getD_eq_getElem _ _ (by rw [hzlen]; exact hj), List.getElem_zip]
    rw [List.getD_eq_getElem _ _ hj, List.getD_eq_getElem _ _ hjc]
  · rw [List.length_map, List.length_zip, List.length_zip]
    omega
  · intro j hj
    have hjf : j < hd.col_form.length := by omega
    have hju : j < hd.col_unit.length := by omega
    have hjz2 : j < (hd.col_form.zip hd.col_unit).length := by
      rw [List.length_zip]; omega
    rw [getD_map_of_lt _ _ _ (("", a0), (("", ""), ("", ""))) _
      (by rw [List.length_zip, List.length_zip]; omega)]
    rw [List.getD_eq_getElem _ _ (by rw [List.length_zip, List.length_zip]; omega),
      List.getElem_zip, List.getElem_zip]
    rw [List.getD_eq_getElem _ _ hj, List.getD_eq_getElem _ _ hjf,
      List.getD_eq_getElem _ _ hju]

/-- Witness for C6 (amended) on the well-formed `hdu_dict` `hdW`. -/
theorem create_bintablehdu_amended_witness :
    ∃ hdu, create_bintablehdu hdW = some hdu ∧
      hdu.header.length = hdW.hdr_vals.length ∧
      (∀ j, j < hdW.hdr_vals.length →
        hdu.header.getD j ⟨"", 0, ""⟩ =
          ⟨(hdW.hdr_vals.getD j ("", 0)).1, (hdW.hdr_vals.getD j ("", 0)).2,
            (hdW.hdr_coms.getD j ("", "")).2⟩) ∧
      hdu.columns.length = hdW.col_vals.length ∧
      (∀ j, j < hdW.col_vals.length →
        hdu.columns.getD j ⟨"", "", [], ""⟩ =
          ⟨(hdW.col_vals.getD j ("", [])).1, (hdW.col_form.getD j ("", "")).2,
            (hdW.col_vals.getD j ("", [])).2,
            (hdW.col_unit.getD j ("", "")).2⟩) :=
  create_bintablehdu_amended hdW 0 [] (by decide) (by decide) (by decide)
    (by decide)
